import Mathlib

/-!
Verification of the request/response tracking and middleware behavior of the
berapi repository.  The authoritative implementation of the tracker is the
`RequestResponseTracker` class in `tests/test_pytest_html_example.py`; its
methods (`track_request`, `track_response`, `_safe_decode`, `clear`,
`to_html`) are embedded below as pure Lean functions over an explicit
tracker state.  Python dynamic values are modelled by the `PyVal` type and
the Python standard-library collaborators (`json.dumps`, `json.loads`,
`html.escape`, `bytes.decode("utf-8")`, `str()`) are modelled executably on
the fragment exercised by the tracker (JSON numbers are restricted to
integers: IEEE-754 float parsing/printing is outside the scope of this
embedding, and no theorem below depends on floats).
-/

namespace BerAPI

/-- Model of a Python runtime value as far as the tracker observes it:
`None`, `bool`, `int`, `str`, `bytes` (a list of byte values), `list`,
`dict` (an association list; Python dicts passed by the test-suite have
string keys and distinct keys), and an arbitrary non-JSON-serializable
object (`pyobj`) carrying its `str()` rendering. -/
inductive PyVal where
  | pynone : PyVal
  | pybool : Bool → PyVal
  | pyint : Int → PyVal
  | pystr : String → PyVal
  | pybytes : List Nat → PyVal
  | pylist : List PyVal → PyVal
  | pydict : List (String × PyVal) → PyVal
  | pyobj : String → PyVal

/-- Python truthiness (`bool(v)`) for the modelled values. -/
def pyTruthy : PyVal → Bool
  | .pynone => false
  | .pybool b => b
  | .pyint n => n != 0
  | .pystr s => s != ""
  | .pybytes bs => !bs.isEmpty
  | .pylist xs => !xs.isEmpty
  | .pydict kvs => !kvs.isEmpty
  | .pyobj _ => true

/-- Python `repr()` of a string, modelled for the printable fragment: the
quote is a single quote unless the string contains one and no double
quote; backslashes, the chosen quote, and common control characters are
escaped. -/
def pyReprStr (s : String) : String :=
  let quote : Char := if s.data.contains (Char.ofNat 39) && !s.data.contains '"' then '"' else Char.ofNat 39
  let esc : Char → String := fun c =>
    if c = '\\' then "\\\\"
    else if c = quote then "\\" ++ String.singleton quote
    else if c = '\n' then "\\n"
    else if c = '\r' then "\\r"
    else if c = '\t' then "\\t"
    else String.singleton c
  String.singleton quote ++ String.join (s.data.map esc) ++ String.singleton quote

/-- Python `repr()` of a bytes object (`b'...'`), modelled for the
printable-ASCII fragment; other bytes are shown as `\xhh`. -/
def pyReprBytes (bs : List Nat) : String :=
  let hexDig : Nat → Char := fun n => if n < 10 then Char.ofNat (48 + n) else Char.ofNat (87 + n)
  let esc : Nat → String := fun b =>
    if b = 92 then "\\\\"
    else if b = 39 then "\\\x27"
    else if b = 10 then "\\n"
    else if b = 13 then "\\r"
    else if b = 9 then "\\t"
    else if 32 ≤ b && b ≤ 126 then String.singleton (Char.ofNat b)
    else "\\x" ++ String.singleton (hexDig (b / 16 % 16)) ++ String.singleton (hexDig (b % 16))
  "b\x27" ++ String.join (bs.map esc) ++ "\x27"

mutual

/-- Python `repr()` on modelled values. -/
def pyRepr : PyVal → String
  | .pynone => "None"
  | .pybool true => "True"
  | .pybool false => "False"
  | .pyint n => toString n
  | .pystr s => pyReprStr s
  | .pybytes bs => pyReprBytes bs
  | .pylist xs => "[" ++ String.intercalate ", " (pyReprList xs) ++ "]"
  | .pydict kvs => "\x7b" ++ String.intercalate ", " (pyReprDict kvs) ++ "\x7d"
  | .pyobj rep => rep

/-- `repr()` of the elements of a list. -/
def pyReprList : List PyVal → List String
  | [] => []
  | x :: xs => pyRepr x :: pyReprList xs

/-- `repr(key): repr(value)` items of a dict. -/
def pyReprDict : List (String × PyVal) → List String
  | [] => []
  | kv :: kvs => (pyReprStr kv.1 ++ ": " ++ pyRepr kv.2) :: pyReprDict kvs

end

/-- Python `str()` on modelled values: identity on strings, `repr()`
otherwise (matching `str` on None/bool/int/containers/bytes). -/
def pyStr : PyVal → String
  | .pystr s => s
  | v => pyRepr v

/-- Lowercase hexadecimal digit. -/
def hexDigit (n : Nat) : Char :=
  if n < 10 then Char.ofNat (48 + n) else Char.ofNat (87 + n)

/-- Four lowercase hexadecimal digits, as used by `json.dumps` for
`\uXXXX` escapes. -/
def hex4 (n : Nat) : String :=
  String.mk [hexDigit (n / 4096 % 16), hexDigit (n / 256 % 16), hexDigit (n / 16 % 16), hexDigit (n % 16)]

/-- `json.dumps` escaping of one character (`ensure_ascii=True`, the
default): short escapes for the JSON control escapes, printable ASCII kept,
everything else `\uXXXX` (with surrogate pairs above U+FFFF). -/
def jsonEscapeChar (c : Char) : String :=
  if c = '"' then "\\\""
  else if c = '\\' then "\\\\"
  else if c = '\n' then "\\n"
  else if c = '\r' then "\\r"
  else if c = '\t' then "\\t"
  else if c = Char.ofNat 8 then "\\b"
  else if c = Char.ofNat 12 then "\\f"
  else if 32 ≤ c.toNat && c.toNat ≤ 126 then String.singleton c
  else if c.toNat ≤ 0xFFFF then "\\u" ++ hex4 c.toNat
  else
    let v := c.toNat - 0x10000
    "\\u" ++ hex4 (0xD800 + v / 0x400) ++ "\\u" ++ hex4 (0xDC00 + v % 0x400)

/-- A JSON string literal as produced by `json.dumps`. -/
def jsonQuote (s : String) : String :=
  "\"" ++ String.join (s.data.map jsonEscapeChar) ++ "\""

/-- Layout of a JSON array/object as produced by `json.dumps`: compact mode
(`indent=None`) uses `", "` between items; indented mode (`indent=w`) puts
each item on its own line indented by `w * (depth + 1)` spaces, with the
closing bracket indented by `w * depth` spaces.  Empty containers render as
the two brackets. -/
def wrapSeq (ind : Option Nat) (depth : Nat) (openB closeB : String) (items : List String) : String :=
  match items with
  | [] => openB ++ closeB
  | _ =>
    match ind with
    | none => openB ++ String.intercalate ", " items ++ closeB
    | some w =>
      let pad := String.mk (List.replicate (w * (depth + 1)) ' ')
      let padClose := String.mk (List.replicate (w * depth) ' ')
      openB ++ "\n" ++ pad ++ String.intercalate (",\n" ++ pad) items ++ "\n" ++ padClose ++ closeB

mutual

/-- `json.dumps(v)` (compact when `ind = none`, `indent=w` when
`ind = some w`), at nesting depth `depth`.  Returns `none` exactly where
CPython raises `TypeError` ("Object of type ... is not JSON serializable"):
on `bytes` and on arbitrary objects. -/
def pyDumps (ind : Option Nat) (depth : Nat) : PyVal → Option String
  | .pynone => some "null"
  | .pybool true => some "true"
  | .pybool false => some "false"
  | .pyint n => some (toString n)
  | .pystr s => some (jsonQuote s)
  | .pybytes _ => none
  | .pyobj _ => none
  | .pylist xs =>
    match pyDumpsList ind (depth + 1) xs with
    | none => none
    | some items => some (wrapSeq ind depth "[" "]" items)
  | .pydict kvs =>
    match pyDumpsDict ind (depth + 1) kvs with
    | none => none
    | some items => some (wrapSeq ind depth "\x7b" "\x7d" items)

/-- Serialize the elements of a list, failing if any element fails. -/
def pyDumpsList (ind : Option Nat) (depth : Nat) : List PyVal → Option (List String)
  | [] => some []
  | x :: xs =>
    match pyDumps ind depth x, pyDumpsList ind depth xs with
    | some s, some ss => some (s :: ss)
    | _, _ => none

/-- Serialize the `"key": value` items of a dict, failing if any value
fails. -/
def pyDumpsDict (ind : Option Nat) (depth : Nat) : List (String × PyVal) → Option (List String)
  | [] => some []
  | kv :: kvs =>
    match pyDumps ind depth kv.2, pyDumpsDict ind depth kvs with
    | some s, some ss => some ((jsonQuote kv.1 ++ ": " ++ s) :: ss)
    | _, _ => none

end

/-- A parsed JSON document (integer-number fragment). -/
inductive Json where
  | null : Json
  | bool : Bool → Json
  | int : Int → Json
  | str : String → Json
  | arr : List Json → Json
  | obj : List (String × Json) → Json

mutual

/-- `json.dumps` on parsed JSON documents (total, since all constructors
are serializable). -/
def jsonDumps (ind : Option Nat) (depth : Nat) : Json → String
  | .null => "null"
  | .bool true => "true"
  | .bool false => "false"
  | .int n => toString n
  | .str s => jsonQuote s
  | .arr xs => wrapSeq ind depth "[" "]" (jsonDumpsList ind (depth + 1) xs)
  | .obj kvs => wrapSeq ind depth "\x7b" "\x7d" (jsonDumpsDict ind (depth + 1) kvs)

/-- Serialized elements of a JSON array. -/
def jsonDumpsList (ind : Option Nat) (depth : Nat) : List Json → List String
  | [] => []
  | x :: xs => jsonDumps ind depth x :: jsonDumpsList ind depth xs

/-- Serialized `"key": value` items of a JSON object. -/
def jsonDumpsDict (ind : Option Nat) (depth : Nat) : List (String × Json) → List String
  | [] => []
  | kv :: kvs => (jsonQuote kv.1 ++ ": " ++ jsonDumps ind depth kv.2) :: jsonDumpsDict ind depth kvs

end

/-- JSON whitespace as skipped by `json.loads` (space, tab, newline,
carriage return). -/
def isJsonWs (c : Char) : Bool :=
  c = ' ' || c = '\t' || c = '\n' || c = '\r'

/-- Drop leading JSON whitespace. -/
def skipWs : List Char → List Char
  | [] => []
  | c :: cs => if isJsonWs c then skipWs cs else c :: cs

/-- Value of an ASCII hex digit, if any. -/
def hexVal (c : Char) : Option Nat :=
  if '0' ≤ c && c ≤ '9' then some (c.toNat - 48)
  else if 'a' ≤ c && c ≤ 'f' then some (c.toNat - 87)
  else if 'A' ≤ c && c ≤ 'F' then some (c.toNat - 55)
  else none

/-- Four hex digits of a `\uXXXX` escape. -/
def parseHex4 : List Char → Option (Nat × List Char)
  | c1 :: c2 :: c3 :: c4 :: rest =>
    match hexVal c1, hexVal c2, hexVal c3, hexVal c4 with
    | some a, some b, some c, some d => some (a * 4096 + b * 256 + c * 16 + d, rest)
    | _, _, _, _ => none
  | _ => none

/-- Body of a JSON string literal (the opening quote already consumed), as
decoded by `json.loads` with `strict=True`: raw control characters are
rejected, the standard escapes and `\uXXXX` are decoded, and surrogate
pairs are combined.  (CPython keeps lone surrogates in the result string;
Lean strings cannot, so this model rejects them — no theorem below depends
on lone surrogates.) -/
def parseJStringGo (fuel : Nat) (cs : List Char) : Option (List Char × List Char) :=
  match fuel with
  | 0 => none
  | fuel + 1 =>
    match cs with
    | [] => none
    | c :: cs' =>
      if c = '"' then some ([], cs')
      else if c = '\\' then
        match cs' with
        | [] => none
        | e :: cs'' =>
          if e = '"' then (parseJStringGo fuel cs'').map (fun p => ('"' :: p.1, p.2))
          else if e = '\\' then (parseJStringGo fuel cs'').map (fun p => ('\\' :: p.1, p.2))
          else if e = '/' then (parseJStringGo fuel cs'').map (fun p => ('/' :: p.1, p.2))
          else if e = 'b' then (parseJStringGo fuel cs'').map (fun p => (Char.ofNat 8 :: p.1, p.2))
          else if e = 'f' then (parseJStringGo fuel cs'').map (fun p => (Char.ofNat 12 :: p.1, p.2))
          else if e = 'n' then (parseJStringGo fuel cs'').map (fun p => ('\n' :: p.1, p.2))
          else if e = 'r' then (parseJStringGo fuel cs'').map (fun p => ('\r' :: p.1, p.2))
          else if e = 't' then (parseJStringGo fuel cs'').map (fun p => ('\t' :: p.1, p.2))
          else if e = 'u' then
            match parseHex4 cs'' with
            | none => none
            | some (n, cs₃) =>
              if 0xD800 ≤ n && n ≤ 0xDBFF then
                match cs₃ with
                | '\\' :: 'u' :: cs₄ =>
                  match parseHex4 cs₄ with
                  | none => none
                  | some (m, cs₅) =>
                    if 0xDC00 ≤ m && m ≤ 0xDFFF then
                      (parseJStringGo fuel cs₅).map
                        (fun p => (Char.ofNat (0x10000 + (n - 0xD800) * 0x400 + (m - 0xDC00)) :: p.1, p.2))
                    else none
                | _ => none
              else if 0xDC00 ≤ n && n ≤ 0xDFFF then none
              else (parseJStringGo fuel cs₃).map (fun p => (Char.ofNat n :: p.1, p.2))
          else none
      else if c.toNat < 32 then none
      else (parseJStringGo fuel cs').map (fun p => (c :: p.1, p.2))

/-- ASCII decimal digit test. -/
def isDigitChar (c : Char) : Bool :=
  '0' ≤ c && c ≤ '9'

/-- A JSON integer literal `-?(0|[1-9][0-9]*)`, as matched by the number
grammar of `json.loads` restricted to integers (a fractional part or an
exponent makes the document fall outside the modelled fragment and the
parse fail). -/
def parseNumber (cs : List Char) : Option (Int × List Char) :=
  let (neg, cs₁) :=
    match cs with
    | '-' :: rest => (true, rest)
    | _ => (false, cs)
  let digits := cs₁.takeWhile isDigitChar
  let rest := cs₁.dropWhile isDigitChar
  match digits with
  | [] => none
  | d :: ds =>
    if d = '0' && !ds.isEmpty then none
    else
      let v : Nat := digits.foldl (fun acc c => acc * 10 + (c.toNat - 48)) 0
      match rest with
      | e :: _ => if e = '.' || e = 'e' || e = 'E' then none else some (if neg then -(v : Int) else (v : Int), rest)
      | [] => some (if neg then -(v : Int) else (v : Int), rest)

/-- Insertion into the association list modelling a Python dict during
object parsing: a repeated key overwrites the value in place (keeping the
key's original position), a new key is appended. -/
def objInsert (k : String) (v : Json) : List (String × Json) → List (String × Json)
  | [] => [(k, v)]
  | (k', v') :: rest => if k' = k then (k, v) :: rest else (k', v') :: objInsert k v rest

mutual

/-- One JSON value, by recursive descent mirroring `json.loads` (with the
integer-number restriction documented at `parseNumber`).  `fuel` only
bounds the recursion; callers supply more fuel than any input can
consume. -/
def parseValue (fuel : Nat) (cs : List Char) : Option (Json × List Char) :=
  match fuel with
  | 0 => none
  | fuel + 1 =>
    match skipWs cs with
    | [] => none
    | c :: rest =>
      if c = '"' then
        match parseJStringGo (rest.length + 1) rest with
        | some (chars, rest') => some (.str (String.mk chars), rest')
        | none => none
      else if c = '[' then
        match skipWs rest with
        | ']' :: rest' => some (.arr [], rest')
        | cs' => parseArrayItems fuel [] cs'
      else if c = '\x7b' then
        match skipWs rest with
        | '\x7d' :: rest' => some (.obj [], rest')
        | cs' => parseObjItems fuel [] cs'
      else
        match c :: rest with
        | 't' :: 'r' :: 'u' :: 'e' :: rest' => some (.bool true, rest')
        | 'f' :: 'a' :: 'l' :: 's' :: 'e' :: rest' => some (.bool false, rest')
        | 'n' :: 'u' :: 'l' :: 'l' :: rest' => some (.null, rest')
        | cs' =>
          if c = '-' || isDigitChar c then
            match parseNumber cs' with
            | some (n, rest') => some (.int n, rest')
            | none => none
          else none

/-- Comma-separated array items up to the closing bracket. -/
def parseArrayItems (fuel : Nat) (acc : List Json) : List Char → Option (Json × List Char) :=
  fun cs =>
    match fuel with
    | 0 => none
    | fuel + 1 =>
      match parseValue fuel cs with
      | none => none
      | some (v, rest) =>
        match skipWs rest with
        | ',' :: rest' => parseArrayItems fuel (acc ++ [v]) rest'
        | ']' :: rest' => some (.arr (acc ++ [v]), rest')
        | _ => none

/-- Comma-separated `"key": value` object items up to the closing brace,
with dict-update semantics for repeated keys. -/
def parseObjItems (fuel : Nat) (acc : List (String × Json)) : List Char → Option (Json × List Char) :=
  fun cs =>
    match fuel with
    | 0 => none
    | fuel + 1 =>
      match skipWs cs with
      | '"' :: rest =>
        match parseJStringGo (rest.length + 1) rest with
        | none => none
        | some (kchars, rest₁) =>
          match skipWs rest₁ with
          | ':' :: rest₂ =>
            match parseValue fuel rest₂ with
            | none => none
            | some (v, rest₃) =>
              let acc' := objInsert (String.mk kchars) v acc
              match skipWs rest₃ with
              | ',' :: rest₄ => parseObjItems fuel acc' rest₄
              | '\x7d' :: rest₄ => some (.obj acc', rest₄)
              | _ => none
          | _ => none
      | _ => none

end

/-- `json.loads` on the modelled fragment: parse one document, then require
only trailing whitespace ("Extra data" otherwise). -/
def jsonLoads (s : String) : Option Json :=
  match parseValue (2 * s.data.length + 8) s.data with
  | some (j, rest) => if (skipWs rest).isEmpty then some j else none
  | none => none

/-- UTF-8 continuation byte test. -/
def utf8Cont (b : Nat) : Bool :=
  0x80 ≤ b && b ≤ 0xBF

/-- Strict UTF-8 decoding of a byte list into characters, following RFC
3629 exactly as CPython's `bytes.decode("utf-8")` does: overlong
encodings, surrogates, prefixes above U+10FFFF, truncated sequences and
stray continuation bytes are all rejected. -/
def utf8DecodeGo : List Nat → Option (List Char)
  | [] => some []
  | b0 :: rest =>
    if b0 ≤ 0x7F then (utf8DecodeGo rest).map (fun cs => Char.ofNat b0 :: cs)
    else if 0xC2 ≤ b0 && b0 ≤ 0xDF then
      match rest with
      | b1 :: rest' =>
        if utf8Cont b1 then
          (utf8DecodeGo rest').map (fun cs => Char.ofNat ((b0 - 0xC0) * 0x40 + (b1 - 0x80)) :: cs)
        else none
      | [] => none
    else if 0xE0 ≤ b0 && b0 ≤ 0xEF then
      match rest with
      | b1 :: b2 :: rest' =>
        let b1ok :=
          if b0 = 0xE0 then 0xA0 ≤ b1 && b1 ≤ 0xBF
          else if b0 = 0xED then 0x80 ≤ b1 && b1 ≤ 0x9F
          else utf8Cont b1
        if b1ok && utf8Cont b2 then
          (utf8DecodeGo rest').map
            (fun cs => Char.ofNat ((b0 - 0xE0) * 0x1000 + (b1 - 0x80) * 0x40 + (b2 - 0x80)) :: cs)
        else none
      | _ => none
    else if 0xF0 ≤ b0 && b0 ≤ 0xF4 then
      match rest with
      | b1 :: b2 :: b3 :: rest' =>
        let b1ok :=
          if b0 = 0xF0 then 0x90 ≤ b1 && b1 ≤ 0xBF
          else if b0 = 0xF4 then 0x80 ≤ b1 && b1 ≤ 0x8F
          else utf8Cont b1
        if b1ok && utf8Cont b2 && utf8Cont b3 then
          (utf8DecodeGo rest').map
            (fun cs =>
              Char.ofNat ((b0 - 0xF0) * 0x40000 + (b1 - 0x80) * 0x1000 + (b2 - 0x80) * 0x40 + (b3 - 0x80)) :: cs)
        else none
      | _ => none
    else none

/-- `bytes.decode("utf-8")` with the default strict error handler: the
decoded string, or `none` where CPython raises `UnicodeDecodeError`. -/
def utf8Decode (bs : List Nat) : Option String :=
  (utf8DecodeGo bs).map String.mk

/-- `html.escape` on one character (`quote=True`, the default): `&`, `<`,
`>`, `"` and the single quote are replaced by entities. -/
def htmlEscapeChar (c : Char) : String :=
  if c = '&' then "&amp;"
  else if c = '<' then "&lt;"
  else if c = '>' then "&gt;"
  else if c = '"' then "&quot;"
  else if c = Char.ofNat 39 then "&#x27;"
  else String.singleton c

/-- `html.escape(s)`.  CPython implements it by successive `str.replace`
calls (`&` first); since no replacement output contains a character that a
later replacement rewrites, that equals this character-wise map. -/
def htmlEscape (s : String) : String :=
  String.join (s.data.map htmlEscapeChar)

/-! ## The tracker (`RequestResponseTracker` in `tests/test_pytest_html_example.py`) -/

/-- The request half of a tracked exchange, as stored by `track_request`:
`'method'`, `'url'` (already `str(url)`), `'headers'`
(`dict(headers) if headers else {}`) and `'body'` (the `_safe_decode`
result, `None` for a `None` body). -/
structure TrackedRequest where
  method : String
  url : String
  headers : List (String × String)
  body : Option String

/-- The response half of a tracked exchange, as stored by `track_response`:
`'status_code'`, `'headers'`, the raw `'body'` value and
`'elapsed'` (`str(elapsed) if elapsed else None`). -/
structure TrackedResponse where
  status_code : Int
  headers : List (String × String)
  body : PyVal
  elapsed : Option String

/-- One entry of the tracker's buffer: a request snapshot paired with its
response snapshot, `none` while the response has not been tracked. -/
structure Exchange where
  request : TrackedRequest
  response : Option TrackedResponse

/-- The tracker state: the `self.requests` list and the `max_requests`
capacity. -/
structure Tracker where
  requests : List Exchange
  max_requests : Nat

/-- The default capacity of `RequestResponseTracker.__init__`
(`max_requests: int = 10`). -/
def defaultMaxRequests : Nat := 10

/-- `RequestResponseTracker(max_requests)`: empty buffer. -/
def mkTracker (max_requests : Nat) : Tracker :=
  ⟨[], max_requests⟩

/-- `RequestResponseTracker()` with the default capacity. -/
def mkTrackerDefault : Tracker :=
  mkTracker defaultMaxRequests

/-- `dict(headers) if headers else {}`: a `None` headers argument is
stored as the empty dict (an empty dict argument is falsy and also yields
`{}`, which coincides with copying it). -/
def storedHeaders : Option (List (String × String)) → List (String × String)
  | none => []
  | some hs => hs

/-- `RequestResponseTracker._safe_decode`: `None` passes through, `bytes`
are UTF-8-decoded with the `'<binary data>'` placeholder on
`UnicodeDecodeError`, `dict`/`list` go through `json.dumps` (whose
`TypeError` on non-serializable content is NOT caught and escapes as
`.error`), and anything else through `str`. -/
def safe_decode : PyVal → Except Unit (Option String)
  | .pynone => .ok none
  | .pybytes bs =>
    .ok (some (match utf8Decode bs with
      | some s => s
      | none => "<binary data>"))
  | .pydict kvs =>
    match pyDumps none 0 (.pydict kvs) with
    | some s => .ok (some s)
    | none => .error ()
  | .pylist xs =>
    match pyDumps none 0 (.pylist xs) with
    | some s => .ok (some s)
    | none => .error ()
  | v => .ok (some (pyStr v))

/-- `RequestResponseTracker.track_request`: append a new exchange with
`response = None`, then `if len(self.requests) > self.max_requests:
self.requests.pop(0)`.  A `TypeError` raised by `_safe_decode` (inside the
appended dict literal) propagates before the append, leaving the tracker
unchanged in the caller. -/
def track_request (method url : String) (headers : Option (List (String × String)))
    (body : PyVal) (t : Tracker) : Except Unit Tracker :=
  match safe_decode body with
  | .error e => .error e
  | .ok b =>
    let base := t.requests ++ [⟨⟨method, url, storedHeaders headers, b⟩, none⟩]
    .ok ⟨if base.length > t.max_requests then base.drop 1 else base, t.max_requests⟩

/-- `RequestResponseTracker.track_response`: `if self.requests and
self.requests[-1]['response'] is None`, set the last entry's response;
otherwise do nothing. -/
def track_response (status_code : Int) (headers : Option (List (String × String)))
    (body : PyVal) (elapsed : PyVal) (t : Tracker) : Tracker :=
  match t.requests.getLast? with
  | none => t
  | some ex =>
    match ex.response with
    | some _ => t
    | none =>
      ⟨t.requests.dropLast ++
        [⟨ex.request,
          some ⟨status_code, storedHeaders headers, body,
            if pyTruthy elapsed then some (pyStr elapsed) else none⟩⟩],
        t.max_requests⟩

/-- `RequestResponseTracker.clear`: `self.requests.clear()`. -/
def clear (t : Tracker) : Tracker :=
  ⟨[], t.max_requests⟩

/-! ## Rendering (`RequestResponseTracker.to_html`) -/

/-- The status-badge colors of `to_html` (`status_color, status_bg`):
2xx green, 4xx yellow, `>= 500` red, anything else grey. -/
def statusColors (status : Int) : String × String :=
  if 200 ≤ status ∧ status < 300 then ("#28a745", "#d4edda")
  else if 400 ≤ status ∧ status < 500 then ("#ffc107", "#fff3cd")
  else if 500 ≤ status then ("#dc3545", "#f8d7da")
  else ("#6c757d", "#e9ecef")

/-- `resp.get('status_code', 0)` where `resp = item.get('response') or {}`. -/
def statusOf : Option TrackedResponse → Int
  | some r => r.status_code
  | none => 0

/-- `resp.get('body')` as a Python value (`None` when the response is
missing). -/
def respBodyOf : Option TrackedResponse → PyVal
  | some r => r.body
  | none => .pynone

/-- `resp.get('elapsed')`. -/
def elapsedOf : Option TrackedResponse → Option String
  | some r => r.elapsed
  | none => none

/-- The request-body formatting step of `to_html`: `if req_body: try:
req_body = json.dumps(json.loads(req_body), indent=2) except
(json.JSONDecodeError, TypeError): pass`. -/
def formatReqBody : Option String → Option String
  | none => none
  | some s =>
    if s = "" then some s
    else
      match jsonLoads s with
      | some j => some (jsonDumps (some 2) 0 j)
      | none => some s

/-- The response-body formatting of `to_html`: a truthy `dict`/`list` body
is re-serialized with `json.dumps(..., indent=2)` (a `TypeError` there is
not caught and aborts `to_html`), and the rendered text is
`str(resp_body) if resp_body else 'No body'`. -/
def renderRespBody (v : PyVal) : Except Unit String :=
  match v with
  | .pydict kvs =>
    if pyTruthy (.pydict kvs) then
      match pyDumps (some 2) 0 (.pydict kvs) with
      | some s => .ok s
      | none => .error ()
    else .ok "No body"
  | .pylist xs =>
    if pyTruthy (.pylist xs) then
      match pyDumps (some 2) 0 (.pylist xs) with
      | some s => .ok s
      | none => .error ()
    else .ok "No body"
  | v => .ok (if pyTruthy v then pyStr v else "No body")

/-- The request headers dict as a JSON document
(`json.dumps(req.get('headers', {}), indent=2)` always succeeds on a
string-to-string dict). -/
def headersJson (hs : List (String × String)) : Json :=
  .obj (hs.map (fun kv => (kv.1, .str kv.2)))

/-- The `Request Body` block of the item template, emitted only when the
(possibly re-serialized) request body is truthy. -/
def reqBodySegment (s : String) : String :=
  "<strong style=\"font-size: 11px; color: #6c757d;\">Request Body:</strong><pre style=\"background: #f8f9fa; padding: 8px; border-radius: 4px; font-size: 10px; margin: 5px 0; max-height: 150px; overflow: auto;\">"
    ++ htmlEscape s ++ "</pre>"

/-- The elapsed-time badge, emitted only when `resp.get("elapsed")` is
truthy. -/
def elapsedSegment : Option String → String
  | some e =>
    if e = "" then ""
    else "<span style=\"color: #6c757d; margin-left: 8px; font-size: 12px;\">⏱ " ++ e ++ "</span>"
  | none => ""

/-- Static template text of the item f-string before `{i}`. -/
def itemTpl1 : String :=
  "\n<div style=\"margin-bottom: 15px; border: 1px solid #dee2e6; border-radius: 6px; overflow: hidden;\">\n    <div style=\"background: #f8f9fa; padding: 10px; border-bottom: 1px solid #dee2e6;\">\n        <strong>#"

/-- Template text between `{i}` and the escaped method. -/
def itemTpl2 : String :=
  "</strong>\n        <span style=\"background: #007bff; color: white; padding: 2px 8px; border-radius: 3px; margin-left: 8px; font-size: 12px;\">"

/-- Template text between the escaped method and the escaped URL. -/
def itemTpl3 : String :=
  "</span>\n        <code style=\"margin-left: 8px; font-size: 12px;\">"

/-- Template text between the escaped URL and `{status_bg}`. -/
def itemTpl4 : String :=
  "</code>\n        <span style=\"background: "

/-- Template text between `{status_bg}` and the first `{status_color}`. -/
def itemTpl5 : String :=
  "; color: "

/-- Template text between the two `{status_color}` slots. -/
def itemTpl6 : String :=
  "; padding: 2px 8px; border-radius: 3px; margin-left: 8px; font-size: 12px; border: 1px solid "

/-- Template text between the second `{status_color}` and `{status}`. -/
def itemTpl7 : String :=
  "40;\">"

/-- Template text between `{status}` and the elapsed badge. -/
def itemTpl8 : String :=
  "</span>\n        "

/-- Template text between the elapsed badge and the escaped headers JSON. -/
def itemTpl9 : String :=
  "\n    </div>\n    <div style=\"display: flex; flex-wrap: wrap;\">\n        <div style=\"flex: 1; min-width: 280px; padding: 10px; border-right: 1px solid #dee2e6;\">\n            <strong style=\"font-size: 11px; color: #6c757d;\">Request Headers:</strong>\n            <pre style=\"background: #f8f9fa; padding: 8px; border-radius: 4px; font-size: 10px; margin: 5px 0; max-height: 120px; overflow: auto;\">"

/-- Template text between the escaped headers JSON and the request-body
block. -/
def itemTpl10 : String :=
  "</pre>\n            "

/-- Template text between the request-body block and the escaped response
body. -/
def itemTpl11 : String :=
  "\n        </div>\n        <div style=\"flex: 1; min-width: 280px; padding: 10px;\">\n            <strong style=\"font-size: 11px; color: #6c757d;\">Response Body:</strong>\n            <pre style=\"background: #f8f9fa; padding: 8px; border-radius: 4px; font-size: 10px; margin: 5px 0; max-height: 250px; overflow: auto;\">"

/-- Template text after the escaped response body. -/
def itemTpl12 : String :=
  "</pre>\n        </div>\n    </div>\n</div>"

/-- One iteration of the `for i, item in enumerate(self.requests, 1)` loop
of `to_html`: the f-string template for one tracked exchange, with the
interpolation slots filled in. -/
def renderItem (i : Nat) (ex : Exchange) : Except Unit String :=
  match renderRespBody (respBodyOf ex.response) with
  | .error e => .error e
  | .ok respBodyStr =>
    let status := statusOf ex.response
    let status_color := (statusColors status).1
    let status_bg := (statusColors status).2
    .ok
      (itemTpl1 ++ toString i
        ++ itemTpl2 ++ htmlEscape ex.request.method
        ++ itemTpl3 ++ htmlEscape ex.request.url
        ++ itemTpl4 ++ status_bg
        ++ itemTpl5 ++ status_color
        ++ itemTpl6 ++ status_color
        ++ itemTpl7 ++ toString status
        ++ itemTpl8 ++ elapsedSegment (elapsedOf ex.response)
        ++ itemTpl9 ++ htmlEscape (jsonDumps (some 2) 0 (headersJson ex.request.headers))
        ++ itemTpl10
        ++ (match formatReqBody ex.request.body with
            | none => ""
            | some s => if s = "" then "" else reqBodySegment s)
        ++ itemTpl11 ++ htmlEscape respBodyStr
        ++ itemTpl12)

/-- The loop of `to_html`, rendering `html_parts` starting at index `i`. -/
def renderParts (i : Nat) : List Exchange → Except Unit (List String)
  | [] => .ok []
  | ex :: rest =>
    match renderItem i ex with
    | .error e => .error e
    | .ok part =>
      match renderParts (i + 1) rest with
      | .error e => .error e
      | .ok parts => .ok (part :: parts)

/-- The "no requests" indicator returned by `to_html` on an empty buffer. -/
def emptyHtml : String :=
  "<p style=\"color: #6c757d;\">No API requests tracked.</p>"

/-- `''.join(...)`. -/
def joinParts : List String → String
  | [] => ""
  | p :: ps => p ++ joinParts ps

/-- `RequestResponseTracker.to_html`: `if not self.requests:` return the
empty-buffer indicator, else `''.join(html_parts)` over
`enumerate(self.requests, 1)`.  An uncaught `TypeError` from the
response-body `json.dumps` surfaces as `.error`. -/
def to_html (t : Tracker) : Except Unit String :=
  if t.requests.isEmpty then .ok emptyHtml
  else
    match renderParts 1 t.requests with
    | .error e => .error e
    | .ok parts => .ok (joinParts parts)

/-! ## Tracked-request sequences (for the FIFO/capacity claims) -/

/-- The argument tuple of one `track_request` call. -/
structure ReqArgs where
  method : String
  url : String
  headers : Option (List (String × String))
  body : PyVal

/-- Track a sequence of requests in order (propagating an uncaught
`_safe_decode` error, which in Python would abort the test). -/
def trackAll : List ReqArgs → Tracker → Except Unit Tracker
  | [], t => .ok t
  | r :: rs, t =>
    match track_request r.method r.url r.headers r.body t with
    | .error e => .error e
    | .ok t' => trackAll rs t'

/-- The exchange that a successful `track_request` call with these
arguments appends: the request snapshot (with the `_safe_decode`d body)
and a `None` response. -/
def argsEntry (r : ReqArgs) : Exchange :=
  ⟨⟨r.method, r.url, storedHeaders r.headers, ((safe_decode r.body).toOption).getD none⟩, none⟩

/-! ## Spec-modelled components (code not under `src/`)

The middleware pipeline and the header-masking `RequestTracker` live in the
`berapi` package (`berapi/middleware.py`, `berapi/client.py`), which is not
part of the provided sources — only its tests are.  The definitions below
are modelled from the spec (§4.1, §4.3, §4.2) and from the observable
behavior fixed by `tests/test_tracking.py`. -/

/-- Modelled from the spec: the masked-placeholder literal that
`RequestTracker` stores for a redacted header value
(`tests/test_tracking.py::test_mask_headers` fixes it as `***MASKED***`). -/
def maskedPlaceholder : String := "***MASKED***"

/-- ASCII lowercasing, modelling Python `str.lower()` on header names
(which are ASCII). -/
def pyLower (s : String) : String :=
  String.mk (s.data.map Char.toLower)

/-- Modelled from the spec: the header redaction applied by the missing
`RequestTracker.track_request` (`berapi/middleware.py`): "a header whose
name case-insensitively matches a masked name has its value replaced by a
literal masked-placeholder"; all other headers are stored unchanged. -/
def maskHeaders (mask : List String) (hs : List (String × String)) : List (String × String) :=
  hs.map (fun kv => if (mask.map pyLower).contains (pyLower kv.1) then (kv.1, maskedPlaceholder) else kv)

/-- The three hook phases of the pipeline. -/
inductive Phase where
  | request : Phase
  | response : Phase
  | failure : Phase

/-- Modelled from the spec: a middleware is "polymorphic over three
optional capabilities"; an absent hook is a structural `none` (a no-op).
Hooks transform the context of their phase; the error hook's return value
is ignored by the pipeline, so it is modelled with the same shape. -/
structure Middleware (Ctx : Type) where
  name : String
  onRequest : Option (Ctx → Ctx)
  onResponse : Option (Ctx → Ctx)
  onError : Option (Ctx → Ctx)

/-- The hook of a middleware for a given phase. -/
def hookOf {Ctx : Type} (ph : Phase) (mw : Middleware Ctx) : Option (Ctx → Ctx) :=
  match ph with
  | .request => mw.onRequest
  | .response => mw.onResponse
  | .failure => mw.onError

/-- Modelled from the spec: the pipeline "runs every registered
middleware's matching hook, in registration order, for a given phase"
(the same single caller-specified order for all three hook types), folding
the context through present hooks and skipping absent ones.  The second
component records the names of the middlewares whose hook was invoked, in
invocation order. -/
def runPhase {Ctx : Type} (ph : Phase) (mws : List (Middleware Ctx)) (c : Ctx) : Ctx × List String :=
  mws.foldl
    (fun acc mw =>
      match hookOf ph mw with
      | some f => (f acc.1, acc.2 ++ [mw.name])
      | none => acc)
    (c, [])

/-! ## Concrete states used by the witnesses and counterexamples -/

/-- Five requests, to be tracked into a capacity-3 tracker. -/
def c1rs : List ReqArgs :=
  [⟨"GET", "/1", none, .pynone⟩, ⟨"GET", "/2", none, .pynone⟩, ⟨"GET", "/3", none, .pynone⟩,
   ⟨"GET", "/4", none, .pynone⟩, ⟨"GET", "/5", none, .pynone⟩]

/-- Two requests tracked, then one response: the response attaches to the
second (most recent) exchange, leaving the first exchange open behind a
completed one. -/
def c2state : Tracker :=
  track_response 200 none .pynone .pynone
    ((track_request "GET" "/b" none .pynone
        ((track_request "GET" "/a" none .pynone (mkTracker 10)).toOption.getD (mkTracker 10))).toOption.getD
      (mkTracker 10))

/-- One tracked request whose body text `<p>` is not valid JSON and
contains an HTML-special character. -/
def c7state : Tracker :=
  (track_request "POST" "/x" none (.pystr "<p>") (mkTracker 10)).toOption.getD (mkTracker 10)

/-- One tracked request whose URL contains `&`, with a tracked `200`
response. -/
def c8state : Tracker :=
  track_response 200 none .pynone .pynone
    ((track_request "GET" "/u?a=1&b=2" none .pynone (mkTracker 10)).toOption.getD (mkTracker 10))

/-- Boolean prefix test on character lists (an executable companion to
`List.IsPrefix`, evaluated by the kernel in the concrete counterexamples). -/
def prefixCheck : List Char → List Char → Bool
  | [], _ => true
  | _ :: _, [] => false
  | a :: as, b :: bs => a == b && prefixCheck as bs

/-- Boolean infix (substring) test on character lists. -/
def infixCheck (needle : List Char) : List Char → Bool
  | [] => needle.isEmpty
  | b :: bs => prefixCheck needle (b :: bs) || infixCheck needle bs

/-! ## Theorems -/

/-- Claim C3: `track_response` with no open exchange — an empty buffer, a
buffer whose most recent exchange already has a response, or a buffer just
cleared — is a silent no-op leaving the tracker exactly unchanged (the
model is a total function, so no error can be raised). -/
theorem track_response_no_open_noop :
    (∀ (sc : Int) hdrs b e (t : Tracker), t.requests = [] →
        track_response sc hdrs b e t = t)
    ∧ (∀ (sc : Int) hdrs b e (t : Tracker) ex r, t.requests.getLast? = some ex →
        ex.response = some r → track_response sc hdrs b e t = t)
    ∧ (∀ (sc : Int) hdrs b e (t : Tracker),
        track_response sc hdrs b e (clear t) = clear t) := by
  refine ⟨?_, ?_, ?_⟩
  · intro sc hdrs b e t h
    simp [track_response, h]
  · intro sc hdrs b e t ex r hlast hresp
    simp [track_response, hlast, hresp]
  · intro sc hdrs b e t
    simp [track_response, clear]

/-- Witness for C3 at concrete inputs. -/
theorem track_response_no_open_noop_witness :
    track_response 500 none .pynone .pynone (mkTracker 10) = mkTracker 10
    ∧ track_response 500 none .pynone .pynone
        (⟨[⟨⟨"GET", "/a", [], none⟩, some ⟨200, [], .pynone, none⟩⟩], 10⟩ : Tracker)
      = ⟨[⟨⟨"GET", "/a", [], none⟩, some ⟨200, [], .pynone, none⟩⟩], 10⟩
    ∧ track_response 500 none .pynone .pynone (clear mkTrackerDefault) = clear mkTrackerDefault :=
  ⟨track_response_no_open_noop.1 500 none .pynone .pynone (mkTracker 10) rfl,
   track_response_no_open_noop.2.1 500 none .pynone .pynone _ _ ⟨200, [], .pynone, none⟩ rfl rfl,
   track_response_no_open_noop.2.2 500 none .pynone .pynone mkTrackerDefault⟩

/-- Claim C10: `track_response` only ever writes to the last entry of the
buffer — every exchange except the last is exactly unchanged (equal
`dropLast`, equal length), and a last exchange whose response is already
set is never overwritten (the whole call is the identity). -/
theorem track_response_frame :
    (∀ (sc : Int) hdrs b e (t : Tracker),
        (track_response sc hdrs b e t).requests.dropLast = t.requests.dropLast
        ∧ (track_response sc hdrs b e t).requests.length = t.requests.length)
    ∧ (∀ (sc : Int) hdrs b e (t : Tracker) ex r, t.requests.getLast? = some ex →
        ex.response = some r → track_response sc hdrs b e t = t) := by
  constructor
  · intro sc hdrs b e t
    match hl : t.requests.getLast? with
    | none => simp [track_response, hl]
    | some ex =>
      have hne : t.requests ≠ [] := by
        intro h
        rw [h] at hl
        simp at hl
      match hr : ex.response with
      | some r => simp [track_response, hl, hr]
      | none =>
        have hlen : 1 ≤ t.requests.length := List.length_pos.mpr hne
        constructor
        · simp [track_response, hl, hr, List.dropLast_concat]
        · simp [track_response, hl, hr, List.length_dropLast]
          omega
  · intro sc hdrs b e t ex r hlast hresp
    simp [track_response, hlast, hresp]

/-- Witness for C10 at concrete inputs. -/
theorem track_response_frame_witness :
    ((track_response 201 none .pynone .pynone
        (⟨[⟨⟨"GET", "/a", [], none⟩, none⟩, ⟨⟨"GET", "/b", [], none⟩, none⟩], 10⟩ : Tracker)).requests.dropLast
      = ([⟨⟨"GET", "/a", [], none⟩, none⟩, ⟨⟨"GET", "/b", [], none⟩, none⟩] : List Exchange).dropLast)
    ∧ track_response 201 none .pynone .pynone
        (⟨[⟨⟨"GET", "/b", [], none⟩, some ⟨200, [], .pynone, none⟩⟩], 10⟩ : Tracker)
      = ⟨[⟨⟨"GET", "/b", [], none⟩, some ⟨200, [], .pynone, none⟩⟩], 10⟩ :=
  ⟨(track_response_frame.1 201 none .pynone .pynone _).1,
   track_response_frame.2 201 none .pynone .pynone _ _ ⟨200, [], .pynone, none⟩ rfl rfl⟩

/-- Counterexample to claim C2 as stated: after tracking `/a`, tracking
`/b`, and tracking one response (which completes `/b`), the buffer's first
exchange (`/a`, the most recent exchange whose response is null) is still
open, yet a further `track_response` call changes nothing — it does not
complete the most recent open exchange when a later exchange already has a
completed response. -/
theorem track_response_skips_earlier_open_cex :
    c2state.requests.length = 2
    ∧ c2state.requests.head?.map (fun ex => ex.response) = some none
    ∧ track_response 404 none .pynone .pynone c2state = c2state :=
  ⟨rfl, rfl, rfl⟩

/-- Claim C2 (amended): `track_response` completes the buffer's *last*
exchange when that exchange's response is null, setting its response from
the given status, headers, body and elapsed values (so it is no longer
open); when the last exchange is already completed the call is a no-op
even if an earlier exchange is still open. -/
theorem track_response_completes_last_open (sc : Int) (hdrs : Option (List (String × String)))
    (b e : PyVal) (t : Tracker) (ex : Exchange)
    (hlast : t.requests.getLast? = some ex) (hopen : ex.response = none) :
    (track_response sc hdrs b e t).requests.getLast? =
      some ⟨ex.request, some ⟨sc, storedHeaders hdrs, b,
        if pyTruthy e then some (pyStr e) else none⟩⟩ := by
  simp [track_response, hlast, hopen]

/-- Witness for the amended C2 at a concrete input. -/
theorem track_response_completes_last_open_witness :
    (track_response 200 (some [("X", "y")]) (.pystr "ok") (.pystr "0:00:01")
        (⟨[⟨⟨"GET", "/a", [], none⟩, none⟩], 10⟩ : Tracker)).requests.getLast? =
      some ⟨⟨"GET", "/a", [], none⟩, some ⟨200, [("X", "y")], .pystr "ok", some "0:00:01"⟩⟩ := by
  have h := track_response_completes_last_open 200 (some [("X", "y")]) (.pystr "ok")
    (.pystr "0:00:01") (⟨[⟨⟨"GET", "/a", [], none⟩, none⟩], 10⟩ : Tracker)
    ⟨⟨"GET", "/a", [], none⟩, none⟩ rfl rfl
  simpa using h

/-- Claim C9: the status categorization of `to_html` partitions statuses
exactly as 2xx success (green), 4xx client error (yellow), `>= 500` server
error (red), and everything else — 1xx, 3xx, and the `0` standing for a
missing response — neutral grey.  `statusColors` feeds only the two color
slots of the item template (see `renderItem`); rendering is a pure
function of the tracker, so the buffer is unaffected. -/
theorem statusColors_partition (s : Int) :
    (200 ≤ s ∧ s < 300 → statusColors s = ("#28a745", "#d4edda"))
    ∧ (400 ≤ s ∧ s < 500 → statusColors s = ("#ffc107", "#fff3cd"))
    ∧ (500 ≤ s → statusColors s = ("#dc3545", "#f8d7da"))
    ∧ (¬(200 ≤ s ∧ s < 300) ∧ ¬(400 ≤ s ∧ s < 500) ∧ s < 500 →
        statusColors s = ("#6c757d", "#e9ecef")) := by
  unfold statusColors
  refine ⟨fun h => ?_, fun h => ?_, fun h => ?_, fun h => ?_⟩ <;>
    split_ifs <;> first | rfl | omega

/-- Witness for C9: one status from each category, including `302` and the
`0` used for a missing response. -/
theorem statusColors_partition_witness :
    statusColors 204 = ("#28a745", "#d4edda")
    ∧ statusColors 404 = ("#ffc107", "#fff3cd")
    ∧ statusColors 503 = ("#dc3545", "#f8d7da")
    ∧ statusColors 0 = ("#6c757d", "#e9ecef")
    ∧ statusColors 302 = ("#6c757d", "#e9ecef") :=
  ⟨(statusColors_partition 204).1 (by omega),
   (statusColors_partition 404).2.1 (by omega),
   (statusColors_partition 503).2.2.1 (by omega),
   (statusColors_partition 0).2.2.2 (by omega),
   (statusColors_partition 302).2.2.2 (by omega)⟩

/-- Two drops of the same list with equal amounts are equal. -/
theorem drop_congr {α : Type} {m n : Nat} (l : List α) (h : m = n) : l.drop m = l.drop n := by
  rw [h]

/-- Characterization of tracking a sequence of requests: starting from any
tracker within capacity, a successful `trackAll` leaves exactly the last
`max_requests` of the old-entries-then-new-entries sequence (a `drop` of
the overflow from the front). -/
theorem trackAll_requests (rs : List ReqArgs) : ∀ (t t' : Tracker),
    t.requests.length ≤ t.max_requests → trackAll rs t = .ok t' →
    t'.max_requests = t.max_requests ∧
    t'.requests = (t.requests ++ rs.map argsEntry).drop
      (t.requests.length + rs.length - t.max_requests) := by
  induction rs with
  | nil =>
    intro t t' hlen h
    have ht : t = t' := by
      simpa [trackAll] using h
    subst ht
    simp only [List.map_nil, List.append_nil, List.length_nil, Nat.add_zero]
    have hz : t.requests.length - t.max_requests = 0 := by omega
    rw [hz, List.drop_zero]
    exact ⟨trivial, rfl⟩
  | cons r rs ih =>
    intro t t' hlen h
    rw [trackAll] at h
    match htr : track_request r.method r.url r.headers r.body t with
    | .error e => rw [htr] at h; exact absurd h (by simp)
    | .ok t₁ =>
      rw [htr] at h
      rw [track_request] at htr
      match hsd : safe_decode r.body with
      | .error e => rw [hsd] at htr; exact absurd htr (by simp)
      | .ok bs =>
        rw [hsd] at htr
        have hentry : argsEntry r
            = ⟨⟨r.method, r.url, storedHeaders r.headers, bs⟩, none⟩ := by
          simp [argsEntry, hsd, Except.toOption]
        set e : Exchange := ⟨⟨r.method, r.url, storedHeaders r.headers, bs⟩, none⟩ with he
        have ht₁ : t₁ = ⟨if (t.requests ++ [e]).length > t.max_requests
            then (t.requests ++ [e]).drop 1 else t.requests ++ [e], t.max_requests⟩ :=
          (Except.ok.inj htr).symm
        have hlist : t.requests ++ [e] ++ List.map argsEntry rs
            = t.requests ++ List.map argsEntry (r :: rs) := by
          simp [hentry, List.append_assoc]
        by_cases hc : (t.requests ++ [e]).length > t.max_requests
        · -- the buffer was exactly full: one entry is evicted from the front
          rw [if_pos hc] at ht₁
          subst ht₁
          obtain ⟨hmax, hreq⟩ := ih _ t' (by simp; simp at hc; omega) h
          refine ⟨hmax, ?_⟩
          rw [hreq]
          rw [← List.drop_append_of_le_length (show (1 : Nat) ≤ (t.requests ++ [e]).length by simp)]
          rw [List.drop_drop, hlist]
          refine drop_congr _ ?_
          simp
          simp at hc
          omega
        · -- still within capacity: plain append
          rw [if_neg hc] at ht₁
          subst ht₁
          obtain ⟨hmax, hreq⟩ := ih _ t' (by simp; simp at hc; omega) h
          refine ⟨hmax, ?_⟩
          rw [hreq, hlist]
          refine drop_congr _ ?_
          simp
          omega

/-- Claim C1: with capacity `C` (default `10`), tracking `N <= C` requests
from an empty tracker yields a buffer of exactly those `N` exchanges in
tracking order; tracking `C + K` requests (`K >= 1`) yields a buffer of
exactly the last `C` exchanges in tracking order; and one `track_request`
on any full buffer (whatever the response states of its entries, in
particular a still-pending oldest entry) drops exactly the oldest entry
and appends the new one — strict FIFO. -/
theorem tracker_fifo_bounded :
    mkTrackerDefault.max_requests = 10
    ∧ (∀ (C : Nat) (rs : List ReqArgs) (t' : Tracker), trackAll rs (mkTracker C) = .ok t' →
        (rs.length ≤ C → t'.requests = rs.map argsEntry ∧ t'.requests.length = rs.length)
        ∧ (∀ K, 1 ≤ K → rs.length = C + K →
            t'.requests = (rs.map argsEntry).drop K ∧ t'.requests.length = C))
    ∧ (∀ (t : Tracker) (r : ReqArgs) (t' : Tracker), 1 ≤ t.max_requests →
        t.requests.length = t.max_requests →
        track_request r.method r.url r.headers r.body t = .ok t' →
        t'.requests = t.requests.drop 1 ++ [argsEntry r]) := by
  refine ⟨rfl, ?_, ?_⟩
  · intro C rs t' h
    have hchar := trackAll_requests rs (mkTracker C) t' (by simp [mkTracker]) h
    simp [mkTracker] at hchar
    obtain ⟨-, hreq⟩ := hchar
    constructor
    · intro hle
      have hz : rs.length - C = 0 := by omega
      rw [hreq, hz]
      simp
    · intro K hK hlen
      have hz : rs.length - C = K := by omega
      rw [hreq, hz]
      refine ⟨rfl, ?_⟩
      simp
      omega
  · intro t r t' hcap hfull htr
    rw [track_request] at htr
    match hsd : safe_decode r.body with
    | .error e => rw [hsd] at htr; exact absurd htr (by simp)
    | .ok bs =>
      rw [hsd] at htr
      have hentry : argsEntry r
          = ⟨⟨r.method, r.url, storedHeaders r.headers, bs⟩, none⟩ := by
        simp [argsEntry, hsd, Except.toOption]
      set e : Exchange := ⟨⟨r.method, r.url, storedHeaders r.headers, bs⟩, none⟩ with he
      have ht' : t' = ⟨if (t.requests ++ [e]).length > t.max_requests
          then (t.requests ++ [e]).drop 1 else t.requests ++ [e], t.max_requests⟩ :=
        (Except.ok.inj htr).symm
      have hc : (t.requests ++ [e]).length > t.max_requests := by
        simp
        omega
      rw [if_pos hc] at ht'
      rw [ht', hentry]
      have h1 : (1 : Nat) ≤ t.requests.length := by omega
      exact List.drop_append_of_le_length h1

/-- Witness for C1: capacity 3 with 5 tracked requests keeps the last 3 in
order; a full capacity-1 tracker whose only (still-pending) entry is
evicted by the next `track_request`. -/
theorem tracker_fifo_bounded_witness :
    mkTrackerDefault.max_requests = 10
    ∧ (∃ t' : Tracker,
        trackAll c1rs (mkTracker 3) = .ok t'
        ∧ t'.requests = (c1rs.map argsEntry).drop 2
        ∧ t'.requests.length = 3)
    ∧ (∃ t' : Tracker,
        track_request "GET" "/b" none .pynone
          (⟨[⟨⟨"GET", "/a", [], none⟩, none⟩], 1⟩ : Tracker) = .ok t'
        ∧ t'.requests = ([⟨⟨"GET", "/a", [], none⟩, none⟩] : List Exchange).drop 1
            ++ [argsEntry ⟨"GET", "/b", none, .pynone⟩]) := by
  obtain ⟨t1, ht1⟩ : ∃ x, trackAll c1rs (mkTracker 3) = .ok x := ⟨_, rfl⟩
  obtain ⟨t2, ht2⟩ : ∃ x, track_request "GET" "/b" none .pynone
      (⟨[⟨⟨"GET", "/a", [], none⟩, none⟩], 1⟩ : Tracker) = .ok x := ⟨_, rfl⟩
  refine ⟨tracker_fifo_bounded.1, ⟨t1, ht1, ?_⟩, ⟨t2, ht2, ?_⟩⟩
  · exact (tracker_fifo_bounded.2.1 3 c1rs t1 ht1).2 2 (by omega) rfl
  · exact tracker_fifo_bounded.2.2 _ ⟨"GET", "/b", none, .pynone⟩ t2 (by decide) rfl ht2

/-- The foldl of `runPhase` appends to the invocation log the names of
exactly the middlewares whose hook for the phase is present, in list
order. -/
theorem runPhase_go {Ctx : Type} (ph : Phase) (mws : List (Middleware Ctx)) :
    ∀ (acc : Ctx × List String),
    (mws.foldl
      (fun acc mw =>
        match hookOf ph mw with
        | some f => (f acc.1, acc.2 ++ [mw.name])
        | none => acc)
      acc).2
      = acc.2 ++ (mws.filter (fun mw => (hookOf ph mw).isSome)).map (fun mw => mw.name) := by
  induction mws with
  | nil => intro acc; simp
  | cons mw mws ih =>
    intro acc
    cases hk : hookOf ph mw with
    | some f => simp [List.foldl_cons, hk, ih, List.filter_cons]
    | none => simp [List.foldl_cons, hk, ih, List.filter_cons]

/-- Claim C4: every phase of the pipeline invokes hooks in the single
registration order — the invocation log of any phase is the registration
list (restricted to middlewares implementing that phase's hook) in order;
in particular, for a pipeline `[A, B]` whose middlewares implement the
phase's hook, `A` is invoked before `B` in the before-request phase, the
after-response phase, and the error phase alike (never reversed). -/
theorem pipeline_hooks_registration_order :
    (∀ (Ctx : Type) (ph : Phase) (mws : List (Middleware Ctx)) (c : Ctx),
        (runPhase ph mws c).2
          = (mws.filter (fun mw => (hookOf ph mw).isSome)).map (fun mw => mw.name))
    ∧ (∀ (Ctx : Type) (A B : Middleware Ctx) (c : Ctx) (ph : Phase),
        (hookOf ph A).isSome = true → (hookOf ph B).isSome = true →
        (runPhase ph [A, B] c).2 = [A.name, B.name]) := by
  constructor
  · intro Ctx ph mws c
    simpa using runPhase_go ph mws (c, [])
  · intro Ctx A B c ph hA hB
    cases hkA : hookOf ph A with
    | none => rw [hkA] at hA; simp at hA
    | some f =>
      cases hkB : hookOf ph B with
      | none => rw [hkB] at hB; simp at hB
      | some g => simp [runPhase, hkA, hkB]

/-- Witness for C4: a two-middleware pipeline invoked over `Nat` contexts,
in each of the three phases. -/
theorem pipeline_hooks_registration_order_witness :
    (runPhase .request [(⟨"A", some id, some id, some id⟩ : Middleware Nat),
        ⟨"B", some id, some id, some id⟩] 0).2 = ["A", "B"]
    ∧ (runPhase .response [(⟨"A", some id, some id, some id⟩ : Middleware Nat),
        ⟨"B", some id, some id, some id⟩] 0).2 = ["A", "B"]
    ∧ (runPhase .failure [(⟨"A", some id, some id, some id⟩ : Middleware Nat),
        ⟨"B", some id, some id, some id⟩] 0).2 = ["A", "B"] :=
  ⟨pipeline_hooks_registration_order.2 Nat _ _ 0 .request rfl rfl,
   pipeline_hooks_registration_order.2 Nat _ _ 0 .response rfl rfl,
   pipeline_hooks_registration_order.2 Nat _ _ 0 .failure rfl rfl⟩

/-- Claim C5: header redaction is case-insensitive and non-destructive —
the masked headers list is the original list pointwise, where an entry
whose name case-insensitively matches some masked name keeps its name and
gets the literal placeholder value, and an entry matching no masked name
is exactly unchanged; in particular masking `Authorization` alone leaves
an `X-Api-Key` entry untouched. -/
theorem mask_headers_case_insensitive_nondestructive :
    (∀ (mask : List String) (hs : List (String × String)) (i : Nat) (k v : String),
        hs[i]? = some (k, v) →
        (maskHeaders mask hs).length = hs.length
        ∧ ((∃ m ∈ mask, pyLower m = pyLower k) →
            (maskHeaders mask hs)[i]? = some (k, maskedPlaceholder))
        ∧ ((∀ m ∈ mask, pyLower m ≠ pyLower k) →
            (maskHeaders mask hs)[i]? = some (k, v)))
    ∧ (∀ v w, maskHeaders ["Authorization"] [("Authorization", v), ("X-Api-Key", w)]
        = [("Authorization", maskedPlaceholder), ("X-Api-Key", w)]) := by
  constructor
  · intro mask hs i k v hkv
    refine ⟨by simp [maskHeaders], ?_, ?_⟩
    · rintro ⟨m, hm, heq⟩
      have hmem : pyLower k ∈ mask.map pyLower := List.mem_map.mpr ⟨m, hm, heq⟩
      rw [maskHeaders, List.getElem?_map, hkv]
      simp [hmem]
      intro hall
      exact absurd heq (hall m hm)
    · intro hne
      have hmem : pyLower k ∉ mask.map pyLower := by
        intro hmem
        obtain ⟨m, hm, heq⟩ := List.mem_map.mp hmem
        exact hne m hm heq
      rw [maskHeaders, List.getElem?_map, hkv]
      simp [hmem]
      intro x hx hxeq
      exact absurd hxeq (hne x hx)
  · intro v w
    rfl

/-- Witness for C5 at concrete inputs: mixed-case `AUTHORIZATION` is
masked, `Accept` is untouched. -/
theorem mask_headers_witness :
    (maskHeaders ["Authorization", "X-Api-Key"]
        [("AUTHORIZATION", "Bearer secret"), ("Accept", "application/json")]).length = 2
    ∧ (maskHeaders ["Authorization", "X-Api-Key"]
        [("AUTHORIZATION", "Bearer secret"), ("Accept", "application/json")])[0]?
      = some ("AUTHORIZATION", maskedPlaceholder)
    ∧ (maskHeaders ["Authorization", "X-Api-Key"]
        [("AUTHORIZATION", "Bearer secret"), ("Accept", "application/json")])[1]?
      = some ("Accept", "application/json") := by
  have h0 := mask_headers_case_insensitive_nondestructive.1 ["Authorization", "X-Api-Key"]
    [("AUTHORIZATION", "Bearer secret"), ("Accept", "application/json")] 0
    "AUTHORIZATION" "Bearer secret" rfl
  have h1 := mask_headers_case_insensitive_nondestructive.1 ["Authorization", "X-Api-Key"]
    [("AUTHORIZATION", "Bearer secret"), ("Accept", "application/json")] 1
    "Accept" "application/json" rfl
  refine ⟨h0.1, h0.2.1 ⟨"Authorization", by decide⟩, h1.2.2 ?_⟩
  intro m hm
  fin_cases hm <;> decide

/-- Counterexample to claim C6 as stated: `_safe_decode` does NOT yield a
result without raising for every body — a dict containing a
non-JSON-serializable object makes the uncaught `json.dumps` raise
`TypeError` (modelled as `.error`). -/
theorem safe_decode_raises_cex :
    safe_decode (.pydict [("a", .pyobj "<object object at 0x7f>")]) = .error () := rfl

/-- Claim C6 (amended): `_safe_decode` never raises on `None`, `bytes`,
strings, numbers, booleans, arbitrary objects, and on any dict or list
whose contents are JSON-serializable; a `bytes` body that fails UTF-8
decoding yields the fixed placeholder `'<binary data>'` (and a decodable
one yields its decoding); only a dict/list with non-serializable contents
raises (`TypeError` from the uncaught `json.dumps`). -/
theorem safe_decode_amended :
    (∀ bs, utf8Decode bs = none → safe_decode (.pybytes bs) = .ok (some "<binary data>"))
    ∧ (∀ bs s, utf8Decode bs = some s → safe_decode (.pybytes bs) = .ok (some s))
    ∧ safe_decode .pynone = .ok none
    ∧ (∀ s, safe_decode (.pystr s) = .ok (some s))
    ∧ (∀ n : Int, safe_decode (.pyint n) = .ok (some (toString n)))
    ∧ (∀ b, safe_decode (.pybool b) = .ok (some (pyRepr (.pybool b))))
    ∧ (∀ r, safe_decode (.pyobj r) = .ok (some r))
    ∧ (∀ kvs s, pyDumps none 0 (.pydict kvs) = some s →
        safe_decode (.pydict kvs) = .ok (some s))
    ∧ (∀ xs s, pyDumps none 0 (.pylist xs) = some s →
        safe_decode (.pylist xs) = .ok (some s)) := by
  refine ⟨?_, ?_, rfl, fun s => rfl, fun n => rfl, fun b => rfl, fun r => rfl, ?_, ?_⟩
  · intro bs h
    simp [safe_decode, h]
  · intro bs s h
    simp [safe_decode, h]
  · intro kvs s h
    simp [safe_decode, h]
  · intro xs s h
    simp [safe_decode, h]

/-- Witness for the amended C6 at concrete inputs: an invalid UTF-8 byte,
a valid UTF-8 pair, a serializable dict and a serializable list. -/
theorem safe_decode_amended_witness :
    safe_decode (.pybytes [255]) = .ok (some "<binary data>")
    ∧ safe_decode (.pybytes [104, 105]) = .ok (some "hi")
    ∧ safe_decode (.pydict [("a", .pystr "b")]) = .ok (some "\x7b\"a\": \"b\"\x7d")
    ∧ safe_decode (.pylist [.pyint 1]) = .ok (some "[1]") :=
  ⟨safe_decode_amended.1 [255] rfl,
   safe_decode_amended.2.1 [104, 105] "hi" rfl,
   safe_decode_amended.2.2.2.2.2.2.2.1 [("a", .pystr "b")] _ rfl,
   safe_decode_amended.2.2.2.2.2.2.2.2 [.pyint 1] _ rfl⟩

/-! ## Infrastructure for the rendering claims -/

/-- An infix stays an infix after extending the list on the left. -/
theorem infix_append_left {α : Type} (l : List α) {l₁ l₂ : List α} (h : l₁ <:+: l₂) :
    l₁ <:+: l ++ l₂ := by
  obtain ⟨s, t, rfl⟩ := h
  exact ⟨l ++ s, t, by simp [List.append_assoc]⟩

/-- The middle factor of a string concatenation is an infix of its
character list. -/
theorem str_infix_intro (pre mid post whole : String) (h : whole = pre ++ mid ++ post) :
    mid.data <:+: whole.data := by
  subst h
  exact ⟨pre.data, post.data, by simp [String.data_append]⟩

/-- Each part is an infix of the joined parts. -/
theorem joinParts_sub {ss : List String} {s : String} (h : s ∈ ss) :
    s.data <:+: (joinParts ss).data := by
  induction ss with
  | nil => cases h
  | cons p ps ih =>
    cases h with
    | head => exact ⟨[], (joinParts ps).data, by simp [joinParts, String.data_append]⟩
    | tail _ hmem =>
      simpa [joinParts, String.data_append] using infix_append_left p.data (ih hmem)

/-- `Nat.toDigitsCore` never shortens its accumulator. -/
theorem toDigitsCore_length_le (b : Nat) :
    ∀ (f n : Nat) (l : List Char), l.length ≤ (Nat.toDigitsCore b f n l).length := by
  intro f
  induction f with
  | zero => intro n l; simp [Nat.toDigitsCore]
  | succ f ih =>
    intro n l
    rw [Nat.toDigitsCore]
    by_cases hn : n / b = 0
    · simp [hn]
    · simp only [hn, if_false]
      have h := ih (n / b) (Nat.digitChar (n % b) :: l)
      simp at h
      omega

/-- The decimal representation of a natural number is never the empty
character list. -/
theorem nat_repr_data_ne_nil (n : Nat) : (Nat.repr n).data ≠ [] := by
  have h1 : 1 ≤ (Nat.toDigitsCore 10 (n + 1) n []).length := by
    rw [Nat.toDigitsCore]
    by_cases hn : n / 10 = 0
    · simp [hn]
    · simp only [hn, if_false]
      have h := toDigitsCore_length_le 10 n (n / 10) [Nat.digitChar (n % 10)]
      simp at h
      omega
  intro h
  have h2 : (Nat.toDigitsCore 10 (n + 1) n []).length = 0 := by
    have : (Nat.repr n).data = Nat.toDigitsCore 10 (n + 1) n [] := rfl
    rw [this] at h
    simp [h]
  omega

/-- `str(int)` is never empty. -/
theorem int_toString_data_ne_nil (n : Int) : (toString n).data ≠ [] := by
  cases n with
  | ofNat m => exact nat_repr_data_ne_nil m
  | negSucc m =>
    have : (toString (Int.negSucc m)) = "-" ++ Nat.repr (m + 1) := rfl
    rw [this]
    simp [String.data_append]

/-- A `wrapSeq` with a nonempty opening bracket is nonempty. -/
theorem wrapSeq_data_ne_nil (ind : Option Nat) (d : Nat) (o c : String)
    (items : List String) (ho : o.data ≠ []) :
    (wrapSeq ind d o c items).data ≠ [] := by
  rw [wrapSeq.eq_def]
  cases items with
  | nil => simp [String.data_append, ho]
  | cons x xs =>
    cases ind with
    | none => simp [String.data_append, ho]
    | some w => simp [String.data_append, ho]

/-- `json.dumps` output is never the empty string. -/
theorem jsonDumps_ne_empty (ind : Option Nat) (d : Nat) (j : Json) :
    jsonDumps ind d j ≠ "" := by
  have hdata : (jsonDumps ind d j).data ≠ [] := by
    cases j with
    | null =>
      have he : jsonDumps ind d .null = "null" := rfl
      rw [he]
      decide
    | bool b =>
      cases b with
      | true =>
        have he : jsonDumps ind d (.bool true) = "true" := rfl
        rw [he]
        decide
      | false =>
        have he : jsonDumps ind d (.bool false) = "false" := rfl
        rw [he]
        decide
    | int n => exact int_toString_data_ne_nil n
    | str s =>
      show (jsonQuote s).data ≠ []
      simp [jsonQuote, String.data_append]
    | arr xs => exact wrapSeq_data_ne_nil ind d "[" "]" _ (by decide)
    | obj kvs => exact wrapSeq_data_ne_nil ind d "\x7b" "\x7d" _ (by decide)
  intro h
  rw [h] at hdata
  exact hdata rfl

/-- Inversion of the rendering loop: every exchange of the input list has
a successfully rendered part among the output parts. -/
theorem renderParts_mem : ∀ (i : Nat) (l : List Exchange) (parts : List String) (ex : Exchange),
    renderParts i l = .ok parts → ex ∈ l →
    ∃ k part, renderItem k ex = .ok part ∧ part ∈ parts := by
  intro i l
  induction l generalizing i with
  | nil =>
    intro parts ex h hmem
    cases hmem
  | cons x xs ih =>
    intro parts ex h hmem
    rw [renderParts] at h
    cases hri : renderItem i x with
    | error e => rw [hri] at h; simp at h
    | ok part =>
      rw [hri] at h
      cases hrp : renderParts (i + 1) xs with
      | error e => rw [hrp] at h; simp at h
      | ok ps =>
        rw [hrp] at h
        simp at h
        cases hmem with
        | head =>
          exact ⟨i, part, hri, by rw [← h]; exact List.mem_cons_self ..⟩
        | tail _ hmem' =>
          obtain ⟨k, part', h1, h2⟩ := ih (i + 1) ps ex hrp hmem'
          exact ⟨k, part', h1, by rw [← h]; exact List.mem_cons_of_mem _ h2⟩

/-- Inversion of `to_html` on a nonempty buffer. -/
theorem to_html_ok_parts {t : Tracker} {out : String}
    (h : to_html t = .ok out) (hne : t.requests ≠ []) :
    ∃ parts, renderParts 1 t.requests = .ok parts ∧ out = joinParts parts := by
  rw [to_html] at h
  have hemp : t.requests.isEmpty = false := by
    cases hreqs : t.requests with
    | nil => exact absurd hreqs hne
    | cons a as => rfl
  rw [hemp] at h
  simp only [Bool.false_eq_true, if_false] at h
  cases hrp : renderParts 1 t.requests with
  | error e => rw [hrp] at h; simp at h
  | ok parts =>
    rw [hrp] at h
    simp at h
    exact ⟨parts, rfl, h.symm⟩

/-- Inversion of one rendered item: the part is exactly the template's
segments joined in order. -/
theorem renderItem_segments {i : Nat} {ex : Exchange} {part : String}
    (h : renderItem i ex = .ok part) :
    ∃ rb, renderRespBody (respBodyOf ex.response) = .ok rb ∧
      part = joinParts [itemTpl1, toString i, itemTpl2, htmlEscape ex.request.method, itemTpl3,
        htmlEscape ex.request.url, itemTpl4, (statusColors (statusOf ex.response)).2, itemTpl5,
        (statusColors (statusOf ex.response)).1, itemTpl6, (statusColors (statusOf ex.response)).1,
        itemTpl7, toString (statusOf ex.response), itemTpl8, elapsedSegment (elapsedOf ex.response),
        itemTpl9, htmlEscape (jsonDumps (some 2) 0 (headersJson ex.request.headers)), itemTpl10,
        (match formatReqBody ex.request.body with
          | none => ""
          | some s => if s = "" then "" else reqBodySegment s),
        itemTpl11, htmlEscape rb, itemTpl12] := by
  rw [renderItem] at h
  cases hrb : renderRespBody (respBodyOf ex.response) with
  | error e => rw [hrb] at h; simp at h
  | ok rb =>
    rw [hrb] at h
    simp only [Except.ok.injEq] at h
    refine ⟨rb, rfl, ?_⟩
    rw [← h]
    apply String.ext
    simp [joinParts, String.data_append, List.append_assoc]

/-- The escaped method, URL, status string, and (when present) escaped
request body of a rendered item are infixes of the part. -/
theorem renderItem_pieces {i : Nat} {ex : Exchange} {part : String}
    (h : renderItem i ex = .ok part) :
    (htmlEscape ex.request.method).data <:+: part.data
    ∧ (htmlEscape ex.request.url).data <:+: part.data
    ∧ (toString (statusOf ex.response)).data <:+: part.data
    ∧ (∀ s, formatReqBody ex.request.body = some s → s ≠ "" →
        (htmlEscape s).data <:+: part.data) := by
  obtain ⟨rb, hrb, hpart⟩ := renderItem_segments h
  subst hpart
  refine ⟨joinParts_sub (by simp), joinParts_sub (by simp), joinParts_sub (by simp), ?_⟩
  intro s hs hne
  have hseg : (match formatReqBody ex.request.body with
      | none => ""
      | some s => if s = "" then "" else reqBodySegment s) = reqBodySegment s := by
    rw [hs]
    simp [hne]
  rw [hseg]
  refine List.IsInfix.trans ?_ (joinParts_sub (show reqBodySegment s ∈ _ by simp))
  exact str_infix_intro _ _ "</pre>" _ rfl

/-- Every exchange of the buffer contributes a part that is an infix of
the `to_html` output. -/
theorem to_html_mem_part {t : Tracker} {ex : Exchange} {out : String}
    (hmem : ex ∈ t.requests) (hout : to_html t = .ok out) :
    ∃ k part, renderItem k ex = .ok part ∧ part.data <:+: out.data := by
  have hne : t.requests ≠ [] := List.ne_nil_of_mem hmem
  obtain ⟨parts, hparts, hjoin⟩ := to_html_ok_parts hout hne
  obtain ⟨k, part, h1, h2⟩ := renderParts_mem 1 t.requests parts ex hparts hmem
  exact ⟨k, part, h1, hjoin ▸ joinParts_sub h2⟩

/-- `prefixCheck` decides `List.IsPrefix`. -/
theorem prefixCheck_iff : ∀ (n h : List Char), prefixCheck n h = true ↔ n <+: h := by
  intro n
  induction n with
  | nil => intro h; simp [prefixCheck, List.nil_prefix]
  | cons a as ih =>
    intro h
    cases h with
    | nil => simp [prefixCheck]
    | cons b bs => simp [prefixCheck, List.cons_prefix_cons, ih bs, And.comm]

/-- `infixCheck` decides `List.IsInfix`. -/
theorem infixCheck_iff : ∀ (n h : List Char), infixCheck n h = true ↔ n <:+: h := by
  intro n h
  induction h with
  | nil => simp [infixCheck, List.isEmpty_iff]
  | cons b bs ih =>
    simp [infixCheck, Bool.or_eq_true, prefixCheck_iff, ih, List.infix_cons_iff]

set_option maxRecDepth 16000 in
set_option maxHeartbeats 2000000 in
/-- Counterexample to claim C7 as stated: the tracked request body `<p>`
is not valid JSON, but the rendered report does NOT contain the raw string
form `<p>` unchanged (it contains only the HTML-escaped `&lt;p&gt;`). -/
theorem to_html_raw_body_cex :
    (to_html c7state).toOption.isSome = true
    ∧ ¬ ("<p>".data <:+: ((to_html c7state).toOption.getD "").data) := by
  refine ⟨rfl, fun hcontra => ?_⟩
  have hb : infixCheck "<p>".data ((to_html c7state).toOption.getD "").data = true :=
    (infixCheck_iff _ _).mpr hcontra
  have hf : infixCheck "<p>".data ((to_html c7state).toOption.getD "").data = false := by rfl
  rw [hf] at hb
  exact absurd hb (by decide)

/-- Claim C7 (amended): for every tracked exchange whose stored body text
is nonempty, the rendered report contains the HTML-escaped
`json.dumps(json.loads(body), indent=2)` re-serialization when the body
text is valid JSON, and the HTML-escaped raw body text when it is not
(the formatting attempt falls back rather than raising); the escaping is
the identity whenever the text has no HTML-special characters. -/
theorem to_html_body_roundtrip (t : Tracker) (ex : Exchange) (s : String) (out : String)
    (hmem : ex ∈ t.requests) (hbody : ex.request.body = some s) (hne : s ≠ "")
    (hout : to_html t = .ok out) :
    (∀ j, jsonLoads s = some j →
        (htmlEscape (jsonDumps (some 2) 0 j)).data <:+: out.data)
    ∧ (jsonLoads s = none → (htmlEscape s).data <:+: out.data) := by
  obtain ⟨k, part, hpart, hinf⟩ := to_html_mem_part hmem hout
  obtain ⟨-, -, -, h4⟩ := renderItem_pieces hpart
  constructor
  · intro j hj
    have hfmt : formatReqBody ex.request.body = some (jsonDumps (some 2) 0 j) := by
      rw [hbody, formatReqBody]
      simp [hne, hj]
    exact (h4 _ hfmt (jsonDumps_ne_empty _ _ _)).trans hinf
  · intro hj
    have hfmt : formatReqBody ex.request.body = some s := by
      rw [hbody, formatReqBody]
      simp [hne, hj]
    exact (h4 _ hfmt hne).trans hinf

/-- Witness for the amended C7: a valid-JSON body is rendered re-serialized
with `indent=2`, and a non-JSON body falls back to its (escaped) raw text. -/
theorem to_html_body_roundtrip_witness :
    (∃ out, to_html (⟨[⟨⟨"POST", "/x", [], some "\x7b\"a\":1\x7d"⟩, none⟩], 10⟩ : Tracker)
        = .ok out
      ∧ (htmlEscape "\x7b\n  \"a\": 1\n\x7d").data <:+: out.data)
    ∧ (∃ out, to_html (⟨[⟨⟨"POST", "/x", [], some "not json"⟩, none⟩], 10⟩ : Tracker)
        = .ok out
      ∧ (htmlEscape "not json").data <:+: out.data) := by
  constructor
  · obtain ⟨out, hout⟩ : ∃ out, to_html
        (⟨[⟨⟨"POST", "/x", [], some "\x7b\"a\":1\x7d"⟩, none⟩], 10⟩ : Tracker) = .ok out :=
      ⟨_, rfl⟩
    refine ⟨out, hout, ?_⟩
    have h := (to_html_body_roundtrip _
      ⟨⟨"POST", "/x", [], some "\x7b\"a\":1\x7d"⟩, none⟩ "\x7b\"a\":1\x7d" out
      (by simp) rfl (by decide) hout).1 (.obj [("a", .int 1)]) rfl
    exact h
  · obtain ⟨out, hout⟩ : ∃ out, to_html
        (⟨[⟨⟨"POST", "/x", [], some "not json"⟩, none⟩], 10⟩ : Tracker) = .ok out :=
      ⟨_, rfl⟩
    refine ⟨out, hout, ?_⟩
    exact (to_html_body_roundtrip _ ⟨⟨"POST", "/x", [], some "not json"⟩, none⟩
      "not json" out (by simp) rfl (by decide) hout).2 rfl

set_option maxRecDepth 16000 in
set_option maxHeartbeats 2000000 in
/-- Counterexample to claim C8 as stated: the tracked URL `/u?a=1&b=2` of a
completed exchange is NOT a literal substring of the rendered report (only
its HTML-escaped form `/u?a=1&amp;b=2` is). -/
theorem to_html_url_literal_cex :
    (to_html c8state).toOption.isSome = true
    ∧ ¬ ("/u?a=1&b=2".data <:+: ((to_html c8state).toOption.getD "").data) := by
  refine ⟨rfl, fun hcontra => ?_⟩
  have hb : infixCheck "/u?a=1&b=2".data ((to_html c8state).toOption.getD "").data = true :=
    (infixCheck_iff _ _).mpr hcontra
  have hf : infixCheck "/u?a=1&b=2".data ((to_html c8state).toOption.getD "").data = false := by rfl
  rw [hf] at hb
  exact absurd hb (by decide)

/-- Claim C8 (amended): `to_html` on an empty buffer returns the distinct
"no requests" indicator (containing `No API requests tracked`); on a
buffer with a completed exchange the output contains the HTML-escaped
tracked method, the HTML-escaped tracked URL, and the tracked status code
as substrings (escaping is the identity on method/URL without
HTML-special characters; the status code digits are inserted verbatim). -/
theorem to_html_contents_escaped :
    (∀ t : Tracker, t.requests = [] →
        to_html t = .ok emptyHtml ∧ "No API requests tracked".data <:+: emptyHtml.data)
    ∧ (∀ (t : Tracker) (ex : Exchange) (r : TrackedResponse) (out : String),
        ex ∈ t.requests → ex.response = some r → to_html t = .ok out →
        (htmlEscape ex.request.method).data <:+: out.data
        ∧ (htmlEscape ex.request.url).data <:+: out.data
        ∧ (toString r.status_code).data <:+: out.data) := by
  constructor
  · intro t h
    exact ⟨by rw [to_html, h]; rfl, by decide⟩
  · intro t ex r out hmem hr hout
    obtain ⟨k, part, hpart, hinf⟩ := to_html_mem_part hmem hout
    obtain ⟨h1, h2, h3, -⟩ := renderItem_pieces hpart
    refine ⟨h1.trans hinf, h2.trans hinf, ?_⟩
    have hst : statusOf ex.response = r.status_code := by rw [hr]; rfl
    rw [hst] at h3
    exact h3.trans hinf

/-- Witness for the amended C8: the empty tracker, and a tracker holding
one completed `GET /users/1` exchange with status `200`. -/
theorem to_html_contents_escaped_witness :
    (to_html (mkTracker 10) = .ok emptyHtml
      ∧ "No API requests tracked".data <:+: emptyHtml.data)
    ∧ (∃ out, to_html (⟨[⟨⟨"GET", "/users/1", [], none⟩,
          some ⟨200, [], .pynone, none⟩⟩], 10⟩ : Tracker) = .ok out
        ∧ (htmlEscape "GET").data <:+: out.data
        ∧ (htmlEscape "/users/1").data <:+: out.data
        ∧ (toString (200 : Int)).data <:+: out.data) := by
  constructor
  · exact to_html_contents_escaped.1 (mkTracker 10) rfl
  · obtain ⟨out, hout⟩ : ∃ out, to_html (⟨[⟨⟨"GET", "/users/1", [], none⟩,
        some ⟨200, [], .pynone, none⟩⟩], 10⟩ : Tracker) = .ok out := ⟨_, rfl⟩
    exact ⟨out, hout, to_html_contents_escaped.2 _
      ⟨⟨"GET", "/users/1", [], none⟩, some ⟨200, [], .pynone, none⟩⟩
      ⟨200, [], .pynone, none⟩ out (by simp) rfl hout⟩

end BerAPI
